import Mathlib

/-!
Verification of the answer/scoring subsystem of an online examination platform.

The development shallowly embeds the TypeScript handlers of the repository:
the database is a record of four in-memory tables (users, exams, questions,
answers), each handler becomes a pure function threading that state, JSON
answer maps become association lists with string keys and values, timestamps
become integers (milliseconds since the epoch, matching Date comparison via
valueOf), and a thrown Error becomes an `Except.error` carrying the thrown
message.  Handlers of the source throw before performing any write except
`deleteExam` (which deletes dependent rows before its existence check), so
for all operations but `deleteExam` the `Except` embedding - in which an
error returns no new state - is faithful; `deleteExam` instead returns the
mutated state paired with an optional error message.
-/

namespace ExamApp

/-- Exam status enum of the schema: 'aktif' | 'non-aktif'. -/
inductive ExamStatus where
  | aktif
  | nonAktif
  deriving DecidableEq, Repr

/-- User role enum of the schema: 'admin' | 'peserta'. -/
inductive Role where
  | admin
  | peserta
  deriving DecidableEq, Repr

/-- A JSON object mapping question-id strings to chosen-answer strings,
embedded as an association list (JS object keys are unique in practice). -/
abbrev AnswerMap := List (String × String)

/-- JS property access `m[k]`: first binding of the key, if any. -/
def mapLookup : AnswerMap → String → Option String
  | [], _ => none
  | (k2, v) :: rest, k => if k2 = k then some v else mapLookup rest k

/-- JS `delete m[k]`: drop every binding of the key. -/
def eraseKey (m : AnswerMap) (k : String) : AnswerMap :=
  m.filter (fun p => !decide (p.fst = k))

/-- JS truthiness of `m[k]`: the key is present with a non-empty value
(`undefined` and the empty string are falsy). -/
def truthyAt (m : AnswerMap) (k : String) : Bool :=
  match mapLookup m k with
  | some v => !decide (v = "")
  | none => false

/-- Row of the users table. -/
structure User where
  id : Nat
  nama : String
  email : String
  password : String
  role : Role
  kelas : Option String
  created_at : Int
  deriving DecidableEq, Repr

/-- Row of the exams table. -/
structure Exam where
  id : Nat
  judul_ujian : String
  deskripsi : String
  tanggal_mulai : Int
  tanggal_selesai : Int
  durasi : Nat
  status : ExamStatus
  created_at : Int
  deriving DecidableEq, Repr

/-- Row of the questions table. -/
structure Question where
  id : Nat
  exam_id : Nat
  soal : String
  pilihan : List String
  jawaban_benar : String
  created_at : Int
  deriving DecidableEq, Repr

/-- Row of the answers table. -/
structure Answer where
  id : Nat
  exam_id : Nat
  user_id : Nat
  jawaban : AnswerMap
  nilai : Nat
  waktu_submit : Int
  is_submitted : Bool
  progress_jawaban : Option AnswerMap
  created_at : Int
  deriving DecidableEq, Repr

/-- The four tables of the database, in insertion order. -/
structure DBState where
  users : List User
  exams : List Exam
  questions : List Question
  answers : List Answer
  deriving DecidableEq, Repr

/-- Floor of log2 by repeated halving, with explicit structural fuel. -/
def log2Aux : Nat → Nat → Nat
  | 0, _ => 0
  | fuel + 1, n => if n ≤ 1 then 0 else log2Aux fuel (n / 2) + 1

/-- `⌊log2 n⌋` for positive `n` (0 at 0). -/
def natLog2 (n : Nat) : Nat :=
  log2Aux n n

/-- Round `a / b` to the nearest integer, ties to even - the rounding
performed by IEEE-754 binary64 arithmetic in its default mode. -/
def rneDiv (a b : Nat) : Nat :=
  if 2 * (a % b) < b then a / b
  else if b < 2 * (a % b) then a / b + 1
  else if (a / b) % 2 = 0 then a / b else a / b + 1

/-- `⌊log2 (a / b)⌋` for positive naturals `a`, `b`: the bit-length
difference, corrected downwards by one when `a / b` falls below it. -/
def qexpZ (a b : Nat) : Int :=
  let la := natLog2 a
  let lb := natLog2 b
  if b * 2 ^ (la - lb) ≤ a * 2 ^ (lb - la) then (la : Int) - (lb : Int)
  else (la : Int) - (lb : Int) - 1

/-- The IEEE-754 binary64 value nearest to `a / b` (ties to even), returned
as a dyadic pair `(m, sh)` denoting `m / 2 ^ sh`.  With `e = ⌊log2 (a/b)⌋`,
a normal double has one ulp `2 ^ (e - 52)`, so the significand is `a / b`
scaled by `2 ^ (52 - e)` and rounded to the nearest even integer; below
`2 ^ (-1022)` the grid is the fixed subnormal ulp `2 ^ (-1074)`; above
`2 ^ 52` the ulp exceeds 1 and the value is an integer multiple of it.
Overflow to infinity (at `2 ^ 1024`) is not modeled: every value the scoring
pipeline feeds in stays far below `2 ^ 60`. -/
def fl64 (a b : Nat) : Nat × Nat :=
  if a = 0 ∨ b = 0 then (0, 0)
  else
    let e := qexpZ a b
    if e < -1022 then (rneDiv (a * 2 ^ 1074) b, 1074)
    else if e ≤ 52 then (rneDiv (a * 2 ^ (52 - e).toNat) b, (52 - e).toNat)
    else (rneDiv a (b * 2 ^ (e - 52).toNat) * 2 ^ (e - 52).toNat, 0)

/-- `Math.round((c / n) * 100)` exactly as the source's doubles compute it:
`c / n` rounds to the nearest binary64, the product with 100 rounds again to
the nearest binary64 `m / 2 ^ sh`, and `Math.round` (ECMA: the mathematical
`⌊x + 1/2⌋` on the double's exact value) is `(2 m + 2 ^ sh) / 2 ^ (sh + 1)`
in integer division. -/
def mathRound100 (c n : Nat) : Nat :=
  let p1 := fl64 c n
  let p2 := fl64 (100 * p1.fst) (2 ^ p1.snd)
  (2 * p2.fst + 2 ^ p2.snd) / 2 ^ (p2.snd + 1)

/-- The per-question test of the scoring loop:
`userAnswer && userAnswer === question.jawaban_benar`, i.e. the stored value
under the question's id is truthy (present and non-empty) and strictly equal
to the correct choice. -/
def codeCorrectPred (userAnswers : AnswerMap) (q : Question) : Bool :=
  match mapLookup userAnswers (toString q.id) with
  | some ua => !decide (ua = "") && decide (ua = q.jawaban_benar)
  | none => false

/-- `calculateScore` of handlers/questions.ts: fetch the exam's questions,
return 0 when there are none, otherwise count the questions passing
`codeCorrectPred` and return `Math.round((correct / total) * 100)` as the
source's binary64 arithmetic computes it. -/
def calculateScore (s : DBState) (examId : Nat) (userAnswers : AnswerMap) : Nat :=
  let questions := s.questions.filter (fun q => decide (q.exam_id = examId))
  if questions.length = 0 then 0
  else mathRound100 (questions.countP (codeCorrectPred userAnswers)) questions.length

/-- Correct count exactly as the claim words it: a question counts iff the
answer map holds, under the question's id as a string key, a value exactly
string-equal to the question's correct choice; an absent key is incorrect. -/
def specCorrectCount (questions : List Question) (m : AnswerMap) : Nat :=
  questions.countP (fun q => decide (mapLookup m (toString q.id) = some q.jawaban_benar))

/-- Score exactly as the original claim words it: 0 on an empty question
set, otherwise round-half-up of `correctCount / totalQuestions * 100`
computed in exact rational arithmetic.  The source does not implement this:
its doubles can land on the other side of a midpoint (see the C1
counterexample at 23 of 40). -/
def specScore (questions : List Question) (m : AnswerMap) : Nat :=
  if questions.length = 0 then 0
  else ⌊((specCorrectCount questions m : ℚ) / (questions.length : ℚ) * 100 + 1 / 2 : ℚ)⌋₊

/-- The amended claim's scoring formula: the claim's correct count, rounded
exactly as the source's binary64 arithmetic rounds it (`mathRound100`). -/
def specScoreIEEE (questions : List Question) (m : AnswerMap) : Nat :=
  if questions.length = 0 then 0
  else mathRound100 (specCorrectCount questions m) questions.length

/-- Input of `submitExam` (submitExamInputSchema). -/
structure SubmitExamInput where
  id : Nat
  jawaban : AnswerMap
  deriving DecidableEq, Repr

/-- Input of `updateProgress` (updateProgressInputSchema). -/
structure UpdateProgressInput where
  id : Nat
  progress_jawaban : AnswerMap
  deriving DecidableEq, Repr

/-- Input of `createAnswer` (createAnswerInputSchema; `is_submitted` carries
the zod default `false` when the caller omits it). -/
structure CreateAnswerInput where
  exam_id : Nat
  user_id : Nat
  jawaban : AnswerMap
  is_submitted : Bool
  progress_jawaban : Option AnswerMap
  deriving DecidableEq, Repr

/-- The `and(eq(user_id), eq(exam_id))` filter of `createAnswer`. -/
def matchesPair (examId userId : Nat) (a : Answer) : Bool :=
  decide (a.user_id = userId) && decide (a.exam_id = examId)

/-- Serial primary key for a fresh answers row. -/
def nextAnswerId (s : DBState) : Nat :=
  s.answers.foldl (fun m a => max m a.id) 0 + 1

/-- The row inserted by `createAnswer`: `nilai = 0`, `waktu_submit`
defaulted to now, `is_submitted` from the input
(`input.is_submitted || false`), and the input's progress map
(`input.progress_jawaban || null`). -/
def newAnswer (input : CreateAnswerInput) (now : Int) (s : DBState) : Answer :=
  { id := nextAnswerId s
    exam_id := input.exam_id
    user_id := input.user_id
    jawaban := input.jawaban
    nilai := 0
    waktu_submit := now
    is_submitted := input.is_submitted
    progress_jawaban := input.progress_jawaban
    created_at := now }

/-- `createAnswer` of handlers/questions.ts: reject a duplicate (user, exam)
pair, then a missing user, then a missing exam, in that order, else insert
`newAnswer`. -/
def createAnswer (input : CreateAnswerInput) (now : Int) (s : DBState) :
    Except String (DBState × Answer) :=
  if (s.answers.filter (matchesPair input.exam_id input.user_id)).length > 0 then
    Except.error "Answer record already exists for this user and exam"
  else if (s.users.filter (fun u => decide (u.id = input.user_id))).length = 0 then
    Except.error "User not found"
  else if (s.exams.filter (fun e => decide (e.id = input.exam_id))).length = 0 then
    Except.error "Exam not found"
  else
    Except.ok ({ s with answers := s.answers ++ [newAnswer input now s] },
      newAnswer input now s)

/-- `updateProgress` of handlers/questions.ts: require the row to exist and
to be unsubmitted, then overwrite `progress_jawaban` wholesale. -/
def updateProgress (input : UpdateProgressInput) (s : DBState) :
    Except String (DBState × Answer) :=
  match s.answers.find? (fun a => decide (a.id = input.id)) with
  | none => Except.error "Answer record not found"
  | some a =>
    if a.is_submitted then
      Except.error "Cannot update progress for submitted exam"
    else
      let upd := fun (x : Answer) =>
        if decide (x.id = input.id) then { x with progress_jawaban := some input.progress_jawaban }
        else x
      Except.ok ({ s with answers := s.answers.map upd }, upd a)

/-- The per-row write of `submitExam`: set the final answer map, the computed
score, the submitted flag and the submission time on the matching row. -/
def submitApply (input : SubmitExamInput) (now : Int) (score : Nat) (x : Answer) : Answer :=
  if decide (x.id = input.id) then
    { x with jawaban := input.jawaban, nilai := score, is_submitted := true, waktu_submit := now }
  else x

/-- `submitExam` of handlers/questions.ts: require the row to exist and to be
unsubmitted, compute the score with `calculateScore` on the row's exam and
the submitted map, then write map, score, flag and timestamp at once. -/
def submitExam (input : SubmitExamInput) (now : Int) (s : DBState) :
    Except String (DBState × Answer) :=
  match s.answers.find? (fun a => decide (a.id = input.id)) with
  | none => Except.error "Answer record not found"
  | some a =>
    if a.is_submitted then
      Except.error "Exam has already been submitted"
    else
      let score := calculateScore s a.exam_id input.jawaban
      Except.ok ({ s with answers := s.answers.map (submitApply input now score) },
        submitApply input now score a)

/-- The database after a `createAnswer` call: the new state on success, the
untouched input state on error (the source throws before inserting). -/
def createAnswerDB (input : CreateAnswerInput) (now : Int) (s : DBState) : DBState :=
  match createAnswer input now s with
  | Except.ok (s2, _) => s2
  | Except.error _ => s

/-- The database after an `updateProgress` call (errors are thrown before
any write in the source, so they leave the state untouched). -/
def updateProgressDB (input : UpdateProgressInput) (s : DBState) : DBState :=
  match updateProgress input s with
  | Except.ok (s2, _) => s2
  | Except.error _ => s

/-- The database after a `submitExam` call (errors are thrown before any
write in the source, so they leave the state untouched). -/
def submitExamDB (input : SubmitExamInput) (now : Int) (s : DBState) : DBState :=
  match submitExam input now s with
  | Except.ok (s2, _) => s2
  | Except.error _ => s

/-- The database after a sequence of `createAnswer` calls. -/
def runCreates (calls : List (CreateAnswerInput × Int)) (s : DBState) : DBState :=
  calls.foldl (fun st c => createAnswerDB c.fst c.snd st) s

/-- At most one answers row exists per (exam, user) pair. -/
def atMostOnePerPair (s : DBState) : Prop :=
  ∀ examId userId : Nat, s.answers.countP (matchesPair examId userId) ≤ 1

/-- The per-row pruning step of `deleteQuestion`: on answers of the owning
exam, drop the question's key from the answer map and the progress map, but
only when the stored value is truthy (`if (jawaban && jawaban[id])`). -/
def pruneAnswer (examId : Nat) (key : String) (a : Answer) : Answer :=
  if decide (a.exam_id = examId) then
    { a with
      jawaban := if truthyAt a.jawaban key then eraseKey a.jawaban key else a.jawaban
      progress_jawaban :=
        match a.progress_jawaban with
        | some p => if truthyAt p key then some (eraseKey p key) else some p
        | none => none }
  else a

/-- `deleteQuestion` of handlers/questions.ts: require the question to exist,
prune its key out of every answer of the owning exam, then delete the row. -/
def deleteQuestion (id : Nat) (s : DBState) : Except String DBState :=
  match s.questions.find? (fun q => decide (q.id = id)) with
  | none => Except.error ("Question with ID " ++ toString id ++ " does not exist")
  | some q =>
    Except.ok { s with
      answers := s.answers.map (pruneAnswer q.exam_id (toString id))
      questions := s.questions.filter (fun q2 => !decide (q2.id = id)) }

/-- Input of `createExam` (createExamInputSchema). -/
structure CreateExamInput where
  judul_ujian : String
  deskripsi : String
  tanggal_mulai : Int
  tanggal_selesai : Int
  durasi : Nat
  status : ExamStatus
  deriving DecidableEq, Repr

/-- Input of `updateExam` (updateExamInputSchema, all fields but id optional;
`none` embeds an absent field, and a present Date is always truthy in JS, so
the source's truthiness tests on the two dates coincide with presence). -/
structure UpdateExamInput where
  id : Nat
  judul_ujian : Option String
  deskripsi : Option String
  tanggal_mulai : Option Int
  tanggal_selesai : Option Int
  durasi : Option Nat
  status : Option ExamStatus
  deriving DecidableEq, Repr

/-- Serial primary key for a fresh exams row. -/
def nextExamId (s : DBState) : Nat :=
  s.exams.foldl (fun m e => max m e.id) 0 + 1

/-- The row inserted by `createExam`. -/
def newExam (input : CreateExamInput) (now : Int) (s : DBState) : Exam :=
  { id := nextExamId s
    judul_ujian := input.judul_ujian
    deskripsi := input.deskripsi
    tanggal_mulai := input.tanggal_mulai
    tanggal_selesai := input.tanggal_selesai
    durasi := input.durasi
    status := input.status
    created_at := now }

/-- `createExam` of handlers/exams.ts: reject `tanggal_selesai <=
tanggal_mulai`, else insert the exam. -/
def createExam (input : CreateExamInput) (now : Int) (s : DBState) :
    Except String (DBState × Exam) :=
  if input.tanggal_selesai ≤ input.tanggal_mulai then
    Except.error "Tanggal selesai harus setelah tanggal mulai"
  else
    Except.ok ({ s with exams := s.exams ++ [newExam input now s] }, newExam input now s)

/-- The field-wise row update of `updateExam` (only provided fields). -/
def applyExamUpdate (input : UpdateExamInput) (e : Exam) : Exam :=
  { e with
    judul_ujian := input.judul_ujian.getD e.judul_ujian
    deskripsi := input.deskripsi.getD e.deskripsi
    tanggal_mulai := input.tanggal_mulai.getD e.tanggal_mulai
    tanggal_selesai := input.tanggal_selesai.getD e.tanggal_selesai
    durasi := input.durasi.getD e.durasi
    status := input.status.getD e.status }

/-- The update-and-return tail of `updateExam`: write the provided fields on
the matching row; `Exam not found` when no row matched. -/
def updateExamApply (input : UpdateExamInput) (s : DBState) :
    Except String (DBState × Exam) :=
  match s.exams.find? (fun e => decide (e.id = input.id)) with
  | none => Except.error "Exam not found"
  | some e =>
    Except.ok ({ s with
      exams := s.exams.map (fun x => if decide (x.id = input.id) then applyExamUpdate input x else x) },
      applyExamUpdate input e)

/-- `updateExam` of handlers/exams.ts: when both dates are provided, reject
end <= start outright; when exactly one is provided, fetch the stored exam
(`Exam not found` when absent) and reject when the effective end is not
strictly after the effective start; then apply the update. -/
def updateExam (input : UpdateExamInput) (s : DBState) :
    Except String (DBState × Exam) :=
  match input.tanggal_mulai, input.tanggal_selesai with
  | some m, some sel =>
    if sel ≤ m then Except.error "Tanggal selesai harus setelah tanggal mulai"
    else updateExamApply input s
  | some m, none =>
    match s.exams.find? (fun e => decide (e.id = input.id)) with
    | none => Except.error "Exam not found"
    | some ex =>
      if ex.tanggal_selesai ≤ m then Except.error "Tanggal selesai harus setelah tanggal mulai"
      else updateExamApply input s
  | none, some sel =>
    match s.exams.find? (fun e => decide (e.id = input.id)) with
    | none => Except.error "Exam not found"
    | some ex =>
      if sel ≤ ex.tanggal_mulai then Except.error "Tanggal selesai harus setelah tanggal mulai"
      else updateExamApply input s
  | none, none => updateExamApply input s

/-- The database after an `updateExam` call (all `updateExam` errors are
thrown before the write, so they leave the state untouched). -/
def updateExamDB (input : UpdateExamInput) (s : DBState) : DBState :=
  match updateExam input s with
  | Except.ok (s2, _) => s2
  | Except.error _ => s

/-- `deleteExam` of handlers/exams.ts: delete all answers of the exam, then
all its questions, then the exam row itself; `Exam not found` when no exam
row matched - but, as in the source, only after the dependent deletes have
already run, so the function returns the mutated state next to the error. -/
def deleteExam (id : Nat) (s : DBState) : DBState × Option String :=
  let s1 := { s with
    answers := s.answers.filter (fun a => !decide (a.exam_id = id))
    questions := s.questions.filter (fun q => !decide (q.exam_id = id)) }
  if (s.exams.filter (fun e => decide (e.id = id))).length = 0 then
    (s1, some "Exam not found")
  else
    ({ s1 with exams := s.exams.filter (fun e => !decide (e.id = id)) }, none)

/-- `getActiveExams` of handlers/exams.ts: exams with status 'aktif' whose
window contains now (`lte(tanggal_mulai, now)` and `gte(tanggal_selesai,
now)`, both inclusive). -/
def getActiveExams (now : Int) (s : DBState) : List Exam :=
  s.exams.filter (fun e =>
    decide (e.status = ExamStatus.aktif) &&
    decide (e.tanggal_mulai ≤ now) &&
    decide (e.tanggal_selesai ≥ now))

/-- The participant-facing projection of a question: every column of the
questions table except `jawaban_benar` (the `Omit<Question, 'jawaban_benar'>`
select of the source). -/
structure ParticipantQuestion where
  id : Nat
  exam_id : Nat
  soal : String
  pilihan : List String
  created_at : Int
  deriving DecidableEq, Repr

/-- The column selection of `getQuestionsForParticipant`: id, exam_id, soal,
pilihan and created_at, never `jawaban_benar`. -/
def participantProj (q : Question) : ParticipantQuestion :=
  { id := q.id, exam_id := q.exam_id, soal := q.soal,
    pilihan := q.pilihan, created_at := q.created_at }

/-- `getQuestionsForParticipant` of handlers/questions.ts: the exam's
questions with the correct-answer column projected away. -/
def getQuestionsForParticipant (examId : Nat) (s : DBState) : List ParticipantQuestion :=
  (s.questions.filter (fun q => decide (q.exam_id = examId))).map participantProj

/-- The base64 alphabet used by Buffer.toString('base64'). -/
def base64Table : List Char :=
  "ABCDEFGHIJKLMNOPQRSTUVWXYZabcdefghijklmnopqrstuvwxyz0123456789+/".toList

/-- Character of the base64 alphabet at a 6-bit index. -/
def b64char (n : Nat) : Char :=
  base64Table.getD (n % 64) 'A'

/-- RFC 4648 base64 of a byte sequence, with '=' padding, as produced by
`Buffer.from(password).toString('base64')`. -/
def base64Encode : List Nat → List Char
  | [] => []
  | [b1] => [b64char (b1 / 4), b64char (b1 % 4 * 16), '=', '=']
  | [b1, b2] => [b64char (b1 / 4), b64char (b1 % 4 * 16 + b2 / 16), b64char (b2 % 16 * 4), '=']
  | b1 :: b2 :: b3 :: rest =>
    b64char (b1 / 4) :: b64char (b1 % 4 * 16 + b2 / 16) ::
      b64char (b2 % 16 * 4 + b3 / 64) :: b64char (b3 % 64) :: base64Encode rest

/-- `hashPassword` of handlers/users.ts:
`Buffer.from(password).toString('base64')`, applied to the UTF-8 bytes of
the plaintext. -/
def hashPassword (passwordBytes : List Nat) : String :=
  String.mk (base64Encode passwordBytes)

/-- Input of `createUser` (createUserInputSchema), with the plaintext
password given by its UTF-8 byte sequence. -/
structure CreateUserInput where
  nama : String
  email : String
  passwordBytes : List Nat
  role : Role
  kelas : Option String
  deriving DecidableEq, Repr

/-- Serial primary key for a fresh users row. -/
def nextUserId (s : DBState) : Nat :=
  s.users.foldl (fun m u => max m u.id) 0 + 1

/-- `createUser` of handlers/users.ts: store the base64 of the plaintext as
the password (`input.kelas || null` maps an absent or empty class to null). -/
def createUser (input : CreateUserInput) (now : Int) (s : DBState) : DBState × User :=
  let user : User :=
    { id := nextUserId s
      nama := input.nama
      email := input.email
      password := hashPassword input.passwordBytes
      role := input.role
      kelas := match input.kelas with
        | some k => if k = "" then none else some k
        | none => none
      created_at := now }
  ({ s with users := s.users ++ [user] }, user)

/-- JS `String.prototype.split` on a single-character separator: the list of
chunks between occurrences of the separator (an empty input gives one empty
chunk, as in JS). -/
def jsSplit (sep : Char) : List Char → List (List Char)
  | [] => [[]]
  | c :: rest =>
    if c = sep then [] :: jsSplit sep rest
    else
      match jsSplit sep rest with
      | [] => [[c]]
      | part :: parts => (c :: part) :: parts

/-- `verifyPassword` of handlers/auth.ts, parameterized by the PBKDF2
derivation (password, salt ↦ hex hash): split the stored value on ':';
reject unless it splits into exactly a salt and a hash, else compare the
derived hash with the stored one. -/
def verifyPassword (pbkdf2 : String → String → String) (password hashedPassword : String) : Bool :=
  match (jsSplit ':' hashedPassword.data).map (fun l => String.mk l) with
  | [salt, storedHash] => decide (pbkdf2 password salt = storedHash)
  | _ => false

/-- `loginUser` of handlers/auth.ts: find the user by email, return null when
absent or when `verifyPassword` rejects, else return the user. -/
def loginUser (pbkdf2 : String → String → String) (s : DBState)
    (email password : String) : Option User :=
  match s.users.find? (fun u => decide (u.email = email)) with
  | none => none
  | some user =>
    if verifyPassword pbkdf2 password user.password then some user else none

theorem countP_congr_on {α : Type} {l : List α} {p q : α → Bool}
    (h : ∀ a ∈ l, p a = q a) : l.countP p = l.countP q := by
  induction l with
  | nil => rfl
  | cons a t ih =>
    have ha := h a (by simp)
    have ht : ∀ b ∈ t, p b = q b := fun b hb => h b (by simp [hb])
    simp [List.countP_cons, ha, ih ht]

theorem log2Aux_spec (fuel : Nat) : ∀ n : Nat, 0 < n → n ≤ fuel →
    2 ^ log2Aux fuel n ≤ n ∧ n < 2 ^ (log2Aux fuel n + 1) := by
  induction fuel with
  | zero =>
    intro n h0 hf
    omega
  | succ f ih =>
    intro n h0 hf
    unfold log2Aux
    by_cases h1 : n ≤ 1
    · have hn1 : n = 1 := by omega
      subst hn1
      simp
    · rw [if_neg h1]
      obtain ⟨hl, hr⟩ := ih (n / 2) (by omega) (by omega)
      constructor
      · have h2 : 2 ^ (log2Aux f (n / 2) + 1) = 2 * 2 ^ log2Aux f (n / 2) := by ring
        rw [h2]
        omega
      · have h2 : 2 ^ (log2Aux f (n / 2) + 1 + 1) = 2 * 2 ^ (log2Aux f (n / 2) + 1) := by ring
        rw [h2]
        omega

theorem natLog2_spec (n : Nat) (h : 0 < n) :
    2 ^ natLog2 n ≤ n ∧ n < 2 ^ (natLog2 n + 1) :=
  log2Aux_spec n n h le_rfl

theorem rneDiv_le (a b : Nat) (hb : 0 < b) :
    2 * b * rneDiv a b ≤ 2 * a + b := by
  have hdm : b * (a / b) + a % b = a := Nat.div_add_mod a b
  have hq : 2 * b * (a / b) = 2 * (b * (a / b)) := by ring
  have hq1 : 2 * b * (a / b + 1) = 2 * (b * (a / b)) + 2 * b := by ring
  unfold rneDiv
  by_cases h1 : 2 * (a % b) < b
  · rw [if_pos h1, hq]
    omega
  · rw [if_neg h1]
    by_cases h2 : b < 2 * (a % b)
    · rw [if_pos h2, hq1]
      omega
    · rw [if_neg h2]
      by_cases h3 : (a / b) % 2 = 0
      · rw [if_pos h3, hq]
        omega
      · rw [if_neg h3, hq1]
        omega

/-- Lower half of the exponent spec: `2 ^ qexpZ a b ≤ a / b`, stated over
naturals as `2 ^ e⁺ * b ≤ 2 ^ (-e)⁺ * a`. -/
theorem qexpZ_lower (a b : Nat) (ha : 0 < a) (hb : 0 < b) :
    2 ^ (qexpZ a b).toNat * b ≤ 2 ^ (-(qexpZ a b)).toNat * a := by
  obtain ⟨hla1, hla2⟩ := natLog2_spec a ha
  obtain ⟨hlb1, hlb2⟩ := natLog2_spec b hb
  unfold qexpZ
  by_cases hc : b * 2 ^ (natLog2 a - natLog2 b) ≤ a * 2 ^ (natLog2 b - natLog2 a)
  · rw [if_pos hc]
    have h1 : (((natLog2 a : Int) - natLog2 b)).toNat = natLog2 a - natLog2 b := by omega
    have h2 : (-((natLog2 a : Int) - natLog2 b)).toNat = natLog2 b - natLog2 a := by omega
    rw [h1, h2]
    calc 2 ^ (natLog2 a - natLog2 b) * b = b * 2 ^ (natLog2 a - natLog2 b) := by ring
      _ ≤ a * 2 ^ (natLog2 b - natLog2 a) := hc
      _ = 2 ^ (natLog2 b - natLog2 a) * a := by ring
  · rw [if_neg hc]
    by_cases hl : natLog2 b + 1 ≤ natLog2 a
    · have h1 : (((natLog2 a : Int) - natLog2 b - 1)).toNat = natLog2 a - natLog2 b - 1 := by
        omega
      have h2 : (-((natLog2 a : Int) - natLog2 b - 1)).toNat = 0 := by omega
      rw [h1, h2]
      have h3 : 2 ^ (natLog2 a - natLog2 b - 1) * b < 2 ^ (natLog2 a - natLog2 b - 1) * 2 ^ (natLog2 b + 1) :=
        mul_lt_mul_of_pos_left hlb2 (Nat.pos_pow_of_pos _ (by omega))
      have h4 : 2 ^ (natLog2 a - natLog2 b - 1) * 2 ^ (natLog2 b + 1) = 2 ^ natLog2 a := by
        rw [← pow_add]
        congr 1
        omega
      have h5 : 2 ^ (natLog2 a - natLog2 b - 1) * b < a := by
        rw [h4] at h3
        omega
      simpa using Nat.le_of_lt h5
    · have h1 : (((natLog2 a : Int) - natLog2 b - 1)).toNat = 0 := by omega
      have h2 : (-((natLog2 a : Int) - natLog2 b - 1)).toNat = natLog2 b - natLog2 a + 1 := by
        omega
      rw [h1, h2]
      have h3 : b < 2 ^ (natLog2 b + 1) := hlb2
      have h4 : (2:Nat) ^ (natLog2 b + 1) = 2 ^ (natLog2 b - natLog2 a + 1) * 2 ^ natLog2 a := by
        rw [← pow_add]
        congr 1
        omega
      have h5 : 2 ^ (natLog2 b - natLog2 a + 1) * 2 ^ natLog2 a
          ≤ 2 ^ (natLog2 b - natLog2 a + 1) * a :=
        Nat.mul_le_mul_left _ hla1
      simpa using le_trans (le_trans (Nat.le_of_lt h3) (le_of_eq h4)) h5

/-- A rounded quotient of at most `k` (with `k` below `2 ^ 52`, hence exactly
representable) yields a double of at most `k`: `(fl64 a b).1 / 2 ^ (fl64 a
b).2 ≤ k` whenever `a ≤ k * b`. -/
theorem fl64_fst_le (a b k : Nat) (hb : 0 < b) (hk : a ≤ k * b) (hk52 : k ≤ 2 ^ 52) :
    (fl64 a b).fst ≤ k * 2 ^ (fl64 a b).snd := by
  unfold fl64
  by_cases h0 : a = 0 ∨ b = 0
  · rw [if_pos h0]
    simp
  · rw [if_neg h0]
    have ha : 0 < a := by omega
    have hlow := qexpZ_lower a b ha hb
    by_cases hsub : qexpZ a b < -1022
    · simp only [if_pos hsub]
      have hle := rneDiv_le (a * 2 ^ 1074) b hb
      have hbound : 2 * (a * 2 ^ 1074) + b ≤ 2 * b * (k * 2 ^ 1074) + b := by
        have : a * 2 ^ 1074 ≤ k * b * 2 ^ 1074 := Nat.mul_le_mul_right _ hk
        calc 2 * (a * 2 ^ 1074) + b ≤ 2 * (k * b * 2 ^ 1074) + b := by omega
          _ = 2 * b * (k * 2 ^ 1074) + b := by ring
      have h2 : 2 * b * rneDiv (a * 2 ^ 1074) b ≤ 2 * b * (k * 2 ^ 1074) + b := le_trans hle hbound
      have h3 : 2 * (b * rneDiv (a * 2 ^ 1074) b) < 2 * (b * (k * 2 ^ 1074)) + 2 * b := by
        calc 2 * (b * rneDiv (a * 2 ^ 1074) b) = 2 * b * rneDiv (a * 2 ^ 1074) b := by ring
          _ ≤ 2 * b * (k * 2 ^ 1074) + b := h2
          _ = 2 * (b * (k * 2 ^ 1074)) + b := by ring
          _ < 2 * (b * (k * 2 ^ 1074)) + 2 * b := by omega
      have h4 : b * rneDiv (a * 2 ^ 1074) b < b * (k * 2 ^ 1074) + b := by omega
      have h5 : b * rneDiv (a * 2 ^ 1074) b < b * (k * 2 ^ 1074 + 1) := by
        calc b * rneDiv (a * 2 ^ 1074) b < b * (k * 2 ^ 1074) + b := h4
          _ = b * (k * 2 ^ 1074 + 1) := by ring
      have h6 : rneDiv (a * 2 ^ 1074) b < k * 2 ^ 1074 + 1 := Nat.lt_of_mul_lt_mul_left h5
      omega
    · by_cases hmid : qexpZ a b ≤ 52
      · simp only [if_neg hsub, if_pos hmid]
        have hle := rneDiv_le (a * 2 ^ (52 - qexpZ a b).toNat) b hb
        have hbound : 2 * (a * 2 ^ (52 - qexpZ a b).toNat) + b
            ≤ 2 * b * (k * 2 ^ (52 - qexpZ a b).toNat) + b := by
          have : a * 2 ^ (52 - qexpZ a b).toNat ≤ k * b * 2 ^ (52 - qexpZ a b).toNat :=
            Nat.mul_le_mul_right _ hk
          calc 2 * (a * 2 ^ (52 - qexpZ a b).toNat) + b
              ≤ 2 * (k * b * 2 ^ (52 - qexpZ a b).toNat) + b := by omega
            _ = 2 * b * (k * 2 ^ (52 - qexpZ a b).toNat) + b := by ring
        have h2 := le_trans hle hbound
        have h3 : 2 * (b * rneDiv (a * 2 ^ (52 - qexpZ a b).toNat) b)
            < 2 * (b * (k * 2 ^ (52 - qexpZ a b).toNat)) + 2 * b := by
          calc 2 * (b * rneDiv (a * 2 ^ (52 - qexpZ a b).toNat) b)
              = 2 * b * rneDiv (a * 2 ^ (52 - qexpZ a b).toNat) b := by ring
            _ ≤ 2 * b * (k * 2 ^ (52 - qexpZ a b).toNat) + b := h2
            _ = 2 * (b * (k * 2 ^ (52 - qexpZ a b).toNat)) + b := by ring
            _ < 2 * (b * (k * 2 ^ (52 - qexpZ a b).toNat)) + 2 * b := by omega
        have h4 : b * rneDiv (a * 2 ^ (52 - qexpZ a b).toNat) b
            < b * (k * 2 ^ (52 - qexpZ a b).toNat + 1) := by
          have : b * rneDiv (a * 2 ^ (52 - qexpZ a b).toNat) b
              < b * (k * 2 ^ (52 - qexpZ a b).toNat) + b := by omega
          calc b * rneDiv (a * 2 ^ (52 - qexpZ a b).toNat) b
              < b * (k * 2 ^ (52 - qexpZ a b).toNat) + b := this
            _ = b * (k * 2 ^ (52 - qexpZ a b).toNat + 1) := by ring
        have h6 := Nat.lt_of_mul_lt_mul_left h4
        omega
      · exfalso
        have he53 : (53 : Nat) ≤ (qexpZ a b).toNat := by omega
        have hneg : (-(qexpZ a b)).toNat = 0 := by omega
        rw [hneg] at hlow
        have hpow : (2 : Nat) ^ 53 ≤ 2 ^ (qexpZ a b).toNat :=
          Nat.pow_le_pow_right (by omega) he53
        have h1 : 2 ^ 53 * b ≤ 2 ^ (qexpZ a b).toNat * b :=
          Nat.mul_le_mul_right b hpow
        have h2 : 2 ^ 53 * b ≤ a := by
          simpa using le_trans h1 hlow
        have h3 : a ≤ 2 ^ 52 * b := le_trans hk (Nat.mul_le_mul_right b hk52)
        have h4 : (2:Nat) ^ 53 * b ≤ 2 ^ 52 * b := le_trans h2 h3
        have h5 : (2:Nat) ^ 53 ≤ 2 ^ 52 := Nat.le_of_mul_le_mul_right h4 hb
        norm_num at h5

/-- Range of the binary64 score: at most 100 correct of `n` questions can
never round above 100. -/
theorem mathRound100_le_100 (c n : Nat) (hc : c ≤ n) (hn : 0 < n) :
    mathRound100 c n ≤ 100 := by
  unfold mathRound100
  have h1 : (fl64 c n).fst ≤ 1 * 2 ^ (fl64 c n).snd := by
    refine fl64_fst_le c n 1 hn (by omega) (by norm_num)
  have h2 : 100 * (fl64 c n).fst ≤ 100 * 2 ^ (fl64 c n).snd := by omega
  have h3 : (fl64 (100 * (fl64 c n).fst) (2 ^ (fl64 c n).snd)).fst
      ≤ 100 * 2 ^ (fl64 (100 * (fl64 c n).fst) (2 ^ (fl64 c n).snd)).snd :=
    fl64_fst_le _ _ 100 (Nat.pos_pow_of_pos _ (by omega)) (by omega) (by norm_num)
  have h4 : 2 * (fl64 (100 * (fl64 c n).fst) (2 ^ (fl64 c n).snd)).fst
        + 2 ^ (fl64 (100 * (fl64 c n).fst) (2 ^ (fl64 c n).snd)).snd
      < 101 * 2 ^ ((fl64 (100 * (fl64 c n).fst) (2 ^ (fl64 c n).snd)).snd + 1) := by
    have hp := pow_succ 2 (fl64 (100 * (fl64 c n).fst) (2 ^ (fl64 c n).snd)).snd
    have hpos : 0 < (2:Nat) ^ (fl64 (100 * (fl64 c n).fst) (2 ^ (fl64 c n).snd)).snd :=
      Nat.pos_pow_of_pos _ (by omega)
    omega
  have h6 : (2 * (fl64 (100 * (fl64 c n).fst) (2 ^ (fl64 c n).snd)).fst
        + 2 ^ (fl64 (100 * (fl64 c n).fst) (2 ^ (fl64 c n).snd)).snd)
        / 2 ^ ((fl64 (100 * (fl64 c n).fst) (2 ^ (fl64 c n).snd)).snd + 1) < 101 :=
    (Nat.div_lt_iff_lt_mul (Nat.pos_pow_of_pos _ (by omega))).mpr h4
  show (2 * (fl64 (100 * (fl64 c n).fst) (2 ^ (fl64 c n).snd)).fst
      + 2 ^ (fl64 (100 * (fl64 c n).fst) (2 ^ (fl64 c n).snd)).snd)
      / 2 ^ ((fl64 (100 * (fl64 c n).fst) (2 ^ (fl64 c n).snd)).snd + 1) ≤ 100
  omega

theorem codeCorrectPred_eq (m : AnswerMap) (q : Question) (h : q.jawaban_benar ≠ "") :
    codeCorrectPred m q = decide (mapLookup m (toString q.id) = some q.jawaban_benar) := by
  unfold codeCorrectPred
  cases hlk : mapLookup m (toString q.id) with
  | none => simp
  | some ua =>
    by_cases hq : ua = q.jawaban_benar
    · subst hq
      simp [h]
    · simp [hq]

/-- Questions for the C1 counterexample: one exam with 40 questions, each
with correct choice "A". -/
def c1bQuestions : List Question :=
  (List.range 40).map (fun i =>
    { id := i + 1, exam_id := 7, soal := "q", pilihan := ["A", "B", "C", "D"],
      jawaban_benar := "A", created_at := 0 })

/-- Answer map for the C1 counterexample: the first 23 questions answered
correctly, the rest unanswered. -/
def c1bMap : AnswerMap :=
  (List.range 23).map (fun i => (toString (i + 1), "A"))

/-- Database for the C1 counterexample. -/
def c1bState : DBState :=
  { users := [], exams := [], questions := c1bQuestions, answers := [] }

/-- C1 counterexample: 23 string-equal answers out of 40 questions.  The
exact ratio is 57.5, so the claim's round-half-up gives 58; but the source's
doubles compute `23/40` as the binary64 below 0.575 and `*100` rounds the
product down to 57.49999999999999289, so `Math.round` - and `calculateScore`
- return 57, refuting the claim's exact-rational rounding. -/
theorem calculateScore_exact_rounding_counterexample :
    calculateScore c1bState 7 c1bMap = 57 ∧
    specScore (c1bState.questions.filter (fun q => decide (q.exam_id = 7))) c1bMap = 58 := by
  constructor
  · decide
  · have hcnt : specCorrectCount
        (c1bState.questions.filter (fun q => decide (q.exam_id = 7))) c1bMap = 23 := by
      decide
    have hlen : (c1bState.questions.filter (fun q => decide (q.exam_id = 7))).length = 40 := by
      decide
    unfold specScore
    rw [hcnt, hlen]
    norm_num

/-- C1 (amended): `calculateScore` returns
`Math.round(correctCount / totalQuestions * 100)` computed in IEEE-754
binary64 arithmetic - the quotient and the product each correctly rounded to
the nearest double (ties to even) before the half-up rounding - where a
question is correct exactly when the answer map binds its id (as a string
key) to a value string-equal to its correct choice; an exam with no
questions scores 0 (folded into `specScoreIEEE`), an absent key counts as
incorrect, and the result never exceeds 100.  The equality with the amended
claim's scoring formula holds under the data-model invariant that no
question's correct choice is the empty string (the schema restricts it to
{A, B, C, D}); without it the source's truthiness test `userAnswer && ...`
would diverge from plain string equality. -/
theorem calculateScore_matches_amended_claim (s : DBState) (examId : Nat) (m : AnswerMap) :
    calculateScore s examId m ≤ 100 ∧
    ((∀ q ∈ s.questions, q.exam_id = examId → q.jawaban_benar ≠ "") →
      calculateScore s examId m =
        specScoreIEEE (s.questions.filter (fun q => decide (q.exam_id = examId))) m) := by
  constructor
  · unfold calculateScore
    by_cases h0 : (s.questions.filter (fun q => decide (q.exam_id = examId))).length = 0
    · simp [h0]
    · simp only [h0, if_false]
      exact mathRound100_le_100 _ _ (List.countP_le_length _) (Nat.pos_of_ne_zero h0)
  · intro hkey
    unfold calculateScore specScoreIEEE
    by_cases h0 : (s.questions.filter (fun q => decide (q.exam_id = examId))).length = 0
    · simp [h0]
    · simp only [h0, if_false]
      have hcnt : (s.questions.filter (fun q => decide (q.exam_id = examId))).countP
            (codeCorrectPred m) =
          specCorrectCount (s.questions.filter (fun q => decide (q.exam_id = examId))) m := by
        refine countP_congr_on ?_
        intro q hq
        have hmem := List.mem_filter.mp hq
        exact codeCorrectPred_eq m q (hkey q hmem.1 (of_decide_eq_true hmem.2))
      rw [hcnt]

/-- Concrete database for the C1 witness: one exam with two questions whose
correct choices are both "C" (the spec's worked scenario). -/
def c1State : DBState :=
  { users := []
    exams := []
    questions :=
      [ { id := 1, exam_id := 7, soal := "one", pilihan := ["A", "B", "C", "D"],
          jawaban_benar := "C", created_at := 0 },
        { id := 2, exam_id := 7, soal := "two", pilihan := ["A", "B", "C", "D"],
          jawaban_benar := "C", created_at := 0 } ]
    answers := [] }

theorem calculateScore_matches_amended_claim_witness :
    calculateScore c1State 7 [("1", "C")] ≤ 100 ∧
    calculateScore c1State 7 [("1", "C")] =
      specScoreIEEE (c1State.questions.filter (fun q => decide (q.exam_id = 7))) [("1", "C")] :=
  ⟨(calculateScore_matches_amended_claim c1State 7 [("1", "C")]).1,
   (calculateScore_matches_amended_claim c1State 7 [("1", "C")]).2 (by decide)⟩

/-- C2: on an existing, not-yet-submitted answer row, `submitExam` writes the
final answer map, the Scoring Engine's result on the row's exam and that map,
the submitted flag and the submission time, atomically in one row update,
and the returned Answer carries exactly those values (everything else on the
row is untouched, and no other row or table changes). -/
theorem submitExam_submits (s : DBState) (input : SubmitExamInput) (now : Int) (a : Answer)
    (hfind : s.answers.find? (fun x => decide (x.id = input.id)) = some a)
    (hsub : a.is_submitted = false) :
    ∃ s2 a2, submitExam input now s = Except.ok (s2, a2) ∧
      a2.jawaban = input.jawaban ∧
      a2.nilai = calculateScore s a.exam_id input.jawaban ∧
      a2.is_submitted = true ∧
      a2.waktu_submit = now ∧
      a2.id = a.id ∧ a2.exam_id = a.exam_id ∧ a2.user_id = a.user_id ∧
      a2.progress_jawaban = a.progress_jawaban ∧ a2.created_at = a.created_at ∧
      a2 ∈ s2.answers ∧
      s2.users = s.users ∧ s2.exams = s.exams ∧ s2.questions = s.questions ∧
      s2.answers = s.answers.map
        (submitApply input now (calculateScore s a.exam_id input.jawaban)) ∧
      (∀ b ∈ s.answers, b.id ≠ input.id → b ∈ s2.answers) := by
  have hpa := List.find?_some hfind
  have hid : a.id = input.id := of_decide_eq_true hpa
  have hmem : a ∈ s.answers := List.mem_of_find?_eq_some hfind
  refine ⟨{ s with answers := (s.answers.map
      (submitApply input now (calculateScore s a.exam_id input.jawaban))) },
    submitApply input now (calculateScore s a.exam_id input.jawaban) a,
    ?_, ?_, ?_, ?_, ?_, ?_, ?_, ?_, ?_, ?_, ?_, rfl, rfl, rfl, rfl, ?_⟩
  · simp [submitExam, hfind, hsub]
  · simp [submitApply, hid]
  · simp [submitApply, hid]
  · simp [submitApply, hid]
  · simp [submitApply, hid]
  · simp [submitApply, hid]
  · simp [submitApply, hid]
  · simp [submitApply, hid]
  · simp [submitApply, hid]
  · simp [submitApply, hid]
  · exact List.mem_map_of_mem _ hmem
  · intro b hb hbne
    have : submitApply input now (calculateScore s a.exam_id input.jawaban) b = b := by
      simp [submitApply, hbne]
    exact this ▸ List.mem_map_of_mem _ hb

/-- Concrete database for the C2 witness: one unsubmitted answer row. -/
def c2Answer : Answer :=
  { id := 5, exam_id := 7, user_id := 3, jawaban := [], nilai := 0, waktu_submit := 0,
    is_submitted := false, progress_jawaban := none, created_at := 0 }

/-- Concrete database for the C2 witness. -/
def c2State : DBState :=
  { users := [], exams := [], questions := [], answers := [c2Answer] }

theorem submitExam_submits_witness :
    ∃ s2 a2, submitExam ⟨5, [("1", "A")]⟩ 42 c2State = Except.ok (s2, a2) ∧
      a2.jawaban = [("1", "A")] ∧
      a2.nilai = calculateScore c2State 7 [("1", "A")] ∧
      a2.is_submitted = true ∧
      a2.waktu_submit = 42 := by
  obtain ⟨s2, a2, h1, h2, h3, h4, h5, -⟩ :=
    submitExam_submits c2State ⟨5, [("1", "A")]⟩ 42 c2Answer (by decide) rfl
  exact ⟨s2, a2, h1, h2, h3, h4, h5⟩

/-- C3: once a row's submitted flag is true, `updateProgress` on its id fails
with the source's already-submitted message, `submitExam` on its id fails
with its own already-submitted message, and neither failed call changes the
database (the source throws before writing, so the post-call state equals
the input state). -/
theorem submitted_answer_rejects_writes (s : DBState) (i : Nat) (m m2 : AnswerMap)
    (now : Int) (a : Answer)
    (hfind : s.answers.find? (fun x => decide (x.id = i)) = some a)
    (hsub : a.is_submitted = true) :
    updateProgress ⟨i, m⟩ s = Except.error "Cannot update progress for submitted exam" ∧
    updateProgressDB ⟨i, m⟩ s = s ∧
    submitExam ⟨i, m2⟩ now s = Except.error "Exam has already been submitted" ∧
    submitExamDB ⟨i, m2⟩ now s = s := by
  have h1 : updateProgress ⟨i, m⟩ s
      = Except.error "Cannot update progress for submitted exam" := by
    simp [updateProgress, hfind, hsub]
  have h3 : submitExam ⟨i, m2⟩ now s
      = Except.error "Exam has already been submitted" := by
    simp [submitExam, hfind, hsub]
  refine ⟨h1, ?_, h3, ?_⟩
  · unfold updateProgressDB
    rw [h1]
  · unfold submitExamDB
    rw [h3]

/-- Concrete database for the C3 witness: one already-submitted answer row. -/
def c3Answer : Answer :=
  { id := 9, exam_id := 7, user_id := 3, jawaban := [("1", "A")], nilai := 100,
    waktu_submit := 10, is_submitted := true, progress_jawaban := some [("1", "A")],
    created_at := 0 }

/-- Concrete database for the C3 witness. -/
def c3State : DBState :=
  { users := [], exams := [], questions := [], answers := [c3Answer] }

theorem submitted_answer_rejects_writes_witness :
    updateProgress ⟨9, [("1", "B")]⟩ c3State
      = Except.error "Cannot update progress for submitted exam" ∧
    updateProgressDB ⟨9, [("1", "B")]⟩ c3State = c3State ∧
    submitExam ⟨9, [("1", "B")]⟩ 99 c3State
      = Except.error "Exam has already been submitted" ∧
    submitExamDB ⟨9, [("1", "B")]⟩ 99 c3State = c3State :=
  submitted_answer_rejects_writes c3State 9 [("1", "B")] [("1", "B")] 99 c3Answer
    (by decide) rfl

theorem createAnswer_preserves_atMostOne (input : CreateAnswerInput) (now : Int)
    (s : DBState) (h : atMostOnePerPair s) :
    atMostOnePerPair (createAnswerDB input now s) := by
  unfold createAnswerDB createAnswer
  by_cases hdup : (s.answers.filter (matchesPair input.exam_id input.user_id)).length > 0
  · simpa [hdup] using h
  · by_cases huser : (s.users.filter (fun u => decide (u.id = input.user_id))).length = 0
    · simpa [hdup, huser] using h
    · by_cases hexam : (s.exams.filter (fun e => decide (e.id = input.exam_id))).length = 0
      · simpa [hdup, huser, hexam] using h
      · simp only [hdup, huser, hexam, ite_false, ite_true, if_neg, if_pos]
        intro eid uid
        rw [List.countP_append]
        by_cases hm : (input.user_id = uid ∧ input.exam_id = eid)
        · obtain ⟨h1, h2⟩ := hm
          subst h1
          subst h2
          have hz : s.answers.countP (matchesPair input.exam_id input.user_id) = 0 := by
            rw [List.countP_eq_length_filter]
            omega
          simp [hz, List.countP_cons, matchesPair, newAnswer]
        · have hmf : matchesPair eid uid (newAnswer input now s) = false := by
            simp only [matchesPair, newAnswer]
            by_cases h1 : input.user_id = uid
            · by_cases h2 : input.exam_id = eid
              · exact absurd ⟨h1, h2⟩ hm
              · simp [h2]
            · simp [h1]
          have hz : List.countP (matchesPair eid uid) [newAnswer input now s] = 0 := by
            simp [List.countP_cons, hmf]
          rw [hz]
          simpa using h eid uid

theorem runCreates_preserves_atMostOne (calls : List (CreateAnswerInput × Int))
    (s : DBState) (h : atMostOnePerPair s) : atMostOnePerPair (runCreates calls s) := by
  induction calls generalizing s with
  | nil => exact h
  | cons c rest ih =>
    exact ih (createAnswerDB c.fst c.snd s) (createAnswer_preserves_atMostOne c.fst c.snd s h)

/-- C4: `createAnswer` fails with the duplicate-answer conflict when a row
for (exam, user) already exists, with the user-not-found error when (absent
a duplicate) the user id matches no row, and with the exam-not-found error
when (absent a duplicate, with the user present) the exam id matches no row;
on success it returns a new Answer with score 0 and the submitted flag taken
from the input (false unless the caller explicitly requests a submitted
initial state); failed calls leave the database untouched, and any sequence
of create calls preserves at-most-one-answer-per-(exam, user). -/
theorem createAnswer_matches_claim (s : DBState) (input : CreateAnswerInput) (now : Int) :
    (s.answers.filter (matchesPair input.exam_id input.user_id) ≠ [] →
       createAnswer input now s
         = Except.error "Answer record already exists for this user and exam") ∧
    (s.answers.filter (matchesPair input.exam_id input.user_id) = [] →
     (∀ u ∈ s.users, u.id ≠ input.user_id) →
       createAnswer input now s = Except.error "User not found") ∧
    (s.answers.filter (matchesPair input.exam_id input.user_id) = [] →
     (∃ u ∈ s.users, u.id = input.user_id) →
     (∀ e ∈ s.exams, e.id ≠ input.exam_id) →
       createAnswer input now s = Except.error "Exam not found") ∧
    (s.answers.filter (matchesPair input.exam_id input.user_id) = [] →
     (∃ u ∈ s.users, u.id = input.user_id) →
     (∃ e ∈ s.exams, e.id = input.exam_id) →
       createAnswer input now s
         = Except.ok ({ s with answers := s.answers ++ [newAnswer input now s] },
             newAnswer input now s) ∧
       (newAnswer input now s).nilai = 0 ∧
       (newAnswer input now s).is_submitted = input.is_submitted ∧
       (newAnswer input now s).exam_id = input.exam_id ∧
       (newAnswer input now s).user_id = input.user_id) ∧
    (∀ msg, createAnswer input now s = Except.error msg → createAnswerDB input now s = s) ∧
    (atMostOnePerPair s →
       ∀ calls : List (CreateAnswerInput × Int), atMostOnePerPair (runCreates calls s)) := by
  refine ⟨?_, ?_, ?_, ?_, ?_, ?_⟩
  · intro hdup
    have hpos : (s.answers.filter (matchesPair input.exam_id input.user_id)).length > 0 :=
      List.length_pos.mpr hdup
    simp [createAnswer, hpos]
  · intro hdup huser
    have hu : (s.users.filter (fun u => decide (u.id = input.user_id))).length = 0 := by
      rw [List.length_eq_zero, List.filter_eq_nil_iff]
      intro u hmem
      simp [huser u hmem]
    simp [createAnswer, hdup, hu]
  · intro hdup hex hexam
    obtain ⟨u, hu, huid⟩ := hex
    have humem : u ∈ s.users.filter (fun u2 => decide (u2.id = input.user_id)) :=
      List.mem_filter.mpr ⟨hu, by simp [huid]⟩
    have hune : (s.users.filter (fun u2 => decide (u2.id = input.user_id))).length ≠ 0 :=
      Nat.pos_iff_ne_zero.mp (List.length_pos_of_mem humem)
    have he : (s.exams.filter (fun e => decide (e.id = input.exam_id))).length = 0 := by
      rw [List.length_eq_zero, List.filter_eq_nil_iff]
      intro e hmem
      simp [hexam e hmem]
    simp [createAnswer, hdup, hune, he]
  · intro hdup hex hexam
    obtain ⟨u, hu, huid⟩ := hex
    obtain ⟨e, he, heid⟩ := hexam
    have humem : u ∈ s.users.filter (fun u2 => decide (u2.id = input.user_id)) :=
      List.mem_filter.mpr ⟨hu, by simp [huid]⟩
    have hune : (s.users.filter (fun u2 => decide (u2.id = input.user_id))).length ≠ 0 :=
      Nat.pos_iff_ne_zero.mp (List.length_pos_of_mem humem)
    have hemem : e ∈ s.exams.filter (fun e2 => decide (e2.id = input.exam_id)) :=
      List.mem_filter.mpr ⟨he, by simp [heid]⟩
    have hene : (s.exams.filter (fun e2 => decide (e2.id = input.exam_id))).length ≠ 0 :=
      Nat.pos_iff_ne_zero.mp (List.length_pos_of_mem hemem)
    exact ⟨by simp [createAnswer, hdup, hune, hene], rfl, rfl, rfl, rfl⟩
  · intro msg hmsg
    unfold createAnswerDB
    rw [hmsg]
  · intro h calls
    exact runCreates_preserves_atMostOne calls s h

/-- Concrete user for the C4 witness. -/
def c4User : User :=
  { id := 3, nama := "u", email := "u@x.io", password := "p", role := Role.peserta,
    kelas := some "12A", created_at := 0 }

/-- Concrete exam for the C4 witness. -/
def c4Exam : Exam :=
  { id := 7, judul_ujian := "t", deskripsi := "d", tanggal_mulai := 0,
    tanggal_selesai := 10, durasi := 60, status := ExamStatus.aktif, created_at := 0 }

/-- Concrete database for the C4 witness. -/
def c4State : DBState :=
  { users := [c4User], exams := [c4Exam], questions := [], answers := [] }

/-- Concrete input for the C4 witness. -/
def c4Input : CreateAnswerInput :=
  { exam_id := 7, user_id := 3, jawaban := [], is_submitted := false,
    progress_jawaban := none }

theorem createAnswer_matches_claim_witness :
    createAnswer c4Input 5 c4State
      = Except.ok ({ c4State with answers := c4State.answers ++ [newAnswer c4Input 5 c4State] },
          newAnswer c4Input 5 c4State) ∧
    (newAnswer c4Input 5 c4State).nilai = 0 ∧
    (newAnswer c4Input 5 c4State).is_submitted = false ∧
    atMostOnePerPair (runCreates [(c4Input, 5)] c4State) := by
  obtain ⟨-, -, -, h4, -, h6⟩ := createAnswer_matches_claim c4State c4Input 5
  obtain ⟨hok, hn, hsub, -, -⟩ :=
    h4 (by decide) ⟨c4User, by simp [c4State], by decide⟩ ⟨c4Exam, by simp [c4State], by decide⟩
  refine ⟨hok, hn, hsub, h6 ?_ [(c4Input, 5)]⟩
  intro eid uid
  simp [c4State]

theorem mapLookup_eraseKey_self (m : AnswerMap) (k : String) :
    mapLookup (eraseKey m k) k = none := by
  induction m with
  | nil => rfl
  | cons p rest ih =>
    obtain ⟨ka, v⟩ := p
    unfold eraseKey at ih ⊢
    by_cases hp : ka = k
    · simpa [List.filter_cons, hp] using ih
    · simpa [List.filter_cons, hp, mapLookup] using ih

theorem mapLookup_eraseKey_ne (m : AnswerMap) (k k2 : String) (h : k2 ≠ k) :
    mapLookup (eraseKey m k) k2 = mapLookup m k2 := by
  induction m with
  | nil => rfl
  | cons p rest ih =>
    obtain ⟨ka, v⟩ := p
    unfold eraseKey at ih ⊢
    rw [List.filter_cons]
    by_cases hka : ka = k
    · have h2 : ¬ (ka = k2) := by
        rw [hka]
        exact fun e => h e.symm
      rw [if_neg (by simp [hka])]
      rw [ih]
      simp [mapLookup, h2]
    · rw [if_pos (by simp [hka])]
      by_cases hk2 : ka = k2
      · simp [mapLookup, hk2]
      · simp [mapLookup, hk2, ih]

theorem pruneAnswer_flags (examId : Nat) (k : String) (a : Answer) :
    (pruneAnswer examId k a).is_submitted = a.is_submitted ∧
    (pruneAnswer examId k a).nilai = a.nilai ∧
    (pruneAnswer examId k a).id = a.id ∧
    (pruneAnswer examId k a).exam_id = a.exam_id ∧
    (pruneAnswer examId k a).user_id = a.user_id := by
  by_cases h : a.exam_id = examId
  · simp [pruneAnswer, h]
  · simp [pruneAnswer, h]

theorem pruneAnswer_other_exam (examId : Nat) (k : String) (a : Answer)
    (h : a.exam_id ≠ examId) : pruneAnswer examId k a = a := by
  simp [pruneAnswer, h]

theorem pruneAnswer_other_keys (examId : Nat) (k : String) (a : Answer) (k2 : String)
    (h : k2 ≠ k) :
    mapLookup (pruneAnswer examId k a).jawaban k2 = mapLookup a.jawaban k2 ∧
    ((pruneAnswer examId k a).progress_jawaban).map (fun p => mapLookup p k2)
      = (a.progress_jawaban).map (fun p => mapLookup p k2) := by
  by_cases he : a.exam_id = examId
  · constructor
    · by_cases ht : truthyAt a.jawaban k
      · simp [pruneAnswer, he, ht, mapLookup_eraseKey_ne a.jawaban k k2 h]
      · simp [pruneAnswer, he, ht]
    · cases hp : a.progress_jawaban with
      | none => simp [pruneAnswer, he, hp]
      | some p =>
        by_cases ht : truthyAt p k
        · simp [pruneAnswer, he, hp, ht, mapLookup_eraseKey_ne p k k2 h]
        · simp [pruneAnswer, he, hp, ht]
  · simp [pruneAnswer, he]

theorem pruneAnswer_removes_truthy (examId : Nat) (k : String) (a : Answer) (v : String)
    (he : a.exam_id = examId) (hv : mapLookup a.jawaban k = some v) (hne : v ≠ "") :
    mapLookup (pruneAnswer examId k a).jawaban k = none := by
  have ht : truthyAt a.jawaban k = true := by
    simp [truthyAt, hv, hne]
  simp [pruneAnswer, he, ht, mapLookup_eraseKey_self]

theorem pruneAnswer_keeps_empty (examId : Nat) (k : String) (a : Answer)
    (hv : mapLookup a.jawaban k = some "") :
    (pruneAnswer examId k a).jawaban = a.jawaban := by
  have ht : truthyAt a.jawaban k = false := by
    simp [truthyAt, hv]
  by_cases he : a.exam_id = examId
  · simp [pruneAnswer, he, ht]
  · simp [pruneAnswer, he]

theorem pruneAnswer_removes_truthy_progress (examId : Nat) (k : String) (a : Answer)
    (p : AnswerMap) (v : String) (he : a.exam_id = examId)
    (hp : a.progress_jawaban = some p) (hv : mapLookup p k = some v) (hne : v ≠ "") :
    (pruneAnswer examId k a).progress_jawaban = some (eraseKey p k) ∧
    mapLookup (eraseKey p k) k = none := by
  have ht : truthyAt p k = true := by
    simp [truthyAt, hv, hne]
  exact ⟨by simp [pruneAnswer, he, hp, ht], mapLookup_eraseKey_self p k⟩

theorem pruneAnswer_keeps_empty_progress (examId : Nat) (k : String) (a : Answer)
    (p : AnswerMap) (hp : a.progress_jawaban = some p) (hv : mapLookup p k = some "") :
    (pruneAnswer examId k a).progress_jawaban = some p := by
  have ht : truthyAt p k = false := by
    simp [truthyAt, hv]
  by_cases he : a.exam_id = examId
  · simp [pruneAnswer, he, hp, ht]
  · simp [pruneAnswer, he, hp]

/-- Concrete question for the C5 counterexample and witness. -/
def c5Question : Question :=
  { id := 1, exam_id := 7, soal := "q", pilihan := ["A", "B", "C", "D"],
    jawaban_benar := "D", created_at := 0 }

/-- Concrete answer for the C5 counterexample: key "1" holds the empty
string, key "2" a normal choice. -/
def c5Answer : Answer :=
  { id := 4, exam_id := 7, user_id := 3, jawaban := [("1", ""), ("2", "C")],
    nilai := 0, waktu_submit := 0, is_submitted := false,
    progress_jawaban := none, created_at := 0 }

/-- Concrete database for the C5 counterexample and witness. -/
def c5State : DBState :=
  { users := [], exams := [], questions := [c5Question], answers := [c5Answer] }

/-- C5 counterexample: a question (id 1) whose key in the answer map holds
the empty string.  `deleteQuestion` succeeds but the key "1" survives in the
stored answer map with its empty value, because the source only deletes a
key whose value is truthy - refuting the claim's "for any stored value,
including the empty string". -/
theorem deleteQuestion_keeps_empty_string_key :
    (match deleteQuestion 1 c5State with
     | Except.ok s2 => s2.answers.map (fun a => mapLookup a.jawaban "1")
     | Except.error _ => []) = [some ""] := by
  decide

/-- C5 (amended): deleting a question removes its id key from the answer map
and the progress map of every answer of the owning exam whenever the stored
value is non-empty; a key bound to the empty string is left in place; all
other keys and values of both maps are untouched, answers of other exams are
untouched, and no answer's submitted flag or score changes. -/
theorem deleteQuestion_prunes (s : DBState) (id : Nat) (q : Question)
    (hfind : s.questions.find? (fun x => decide (x.id = id)) = some q) :
    ∃ s2, deleteQuestion id s = Except.ok s2 ∧
      s2.users = s.users ∧
      s2.exams = s.exams ∧
      s2.questions = s.questions.filter (fun x => !decide (x.id = id)) ∧
      s2.answers = s.answers.map (pruneAnswer q.exam_id (toString id)) ∧
      (∀ a : Answer,
        (pruneAnswer q.exam_id (toString id) a).is_submitted = a.is_submitted ∧
        (pruneAnswer q.exam_id (toString id) a).nilai = a.nilai ∧
        (a.exam_id ≠ q.exam_id → pruneAnswer q.exam_id (toString id) a = a) ∧
        (∀ k2, k2 ≠ toString id →
          mapLookup (pruneAnswer q.exam_id (toString id) a).jawaban k2
            = mapLookup a.jawaban k2 ∧
          ((pruneAnswer q.exam_id (toString id) a).progress_jawaban).map
              (fun p => mapLookup p k2)
            = (a.progress_jawaban).map (fun p => mapLookup p k2)) ∧
        (∀ v, a.exam_id = q.exam_id → mapLookup a.jawaban (toString id) = some v →
          v ≠ "" →
          mapLookup (pruneAnswer q.exam_id (toString id) a).jawaban (toString id) = none) ∧
        (mapLookup a.jawaban (toString id) = some "" →
          (pruneAnswer q.exam_id (toString id) a).jawaban = a.jawaban) ∧
        (∀ p v, a.exam_id = q.exam_id → a.progress_jawaban = some p →
          mapLookup p (toString id) = some v → v ≠ "" →
          (pruneAnswer q.exam_id (toString id) a).progress_jawaban
              = some (eraseKey p (toString id)) ∧
            mapLookup (eraseKey p (toString id)) (toString id) = none) ∧
        (∀ p, a.progress_jawaban = some p → mapLookup p (toString id) = some "" →
          (pruneAnswer q.exam_id (toString id) a).progress_jawaban = some p)) := by
  refine ⟨{ s with
      answers := (s.answers.map (pruneAnswer q.exam_id (toString id)))
      questions := (s.questions.filter (fun x => !decide (x.id = id))) },
    by simp [deleteQuestion, hfind], rfl, rfl, rfl, rfl, ?_⟩
  intro a
  refine ⟨(pruneAnswer_flags q.exam_id (toString id) a).1,
    (pruneAnswer_flags q.exam_id (toString id) a).2.1,
    fun h => pruneAnswer_other_exam q.exam_id (toString id) a h,
    fun k2 h => pruneAnswer_other_keys q.exam_id (toString id) a k2 h,
    fun v he hv hne => pruneAnswer_removes_truthy q.exam_id (toString id) a v he hv hne,
    fun hv => pruneAnswer_keeps_empty q.exam_id (toString id) a hv,
    fun p v he hp hv hne =>
      pruneAnswer_removes_truthy_progress q.exam_id (toString id) a p v he hp hv hne,
    fun p hp hv => pruneAnswer_keeps_empty_progress q.exam_id (toString id) a p hp hv⟩

theorem deleteQuestion_prunes_witness :
    ∃ s2, deleteQuestion 1 c5State = Except.ok s2 ∧
      s2.users = c5State.users ∧
      s2.exams = c5State.exams ∧
      s2.questions = c5State.questions.filter (fun x => !decide (x.id = 1)) ∧
      s2.answers = c5State.answers.map (pruneAnswer c5Question.exam_id (toString 1)) := by
  obtain ⟨s2, h1, h2, h3, h4, h5, -⟩ :=
    deleteQuestion_prunes c5State 1 c5Question (by decide)
  exact ⟨s2, h1, h2, h3, h4, h5⟩

/-- C6: `deleteExam` on an existing exam removes every answer of the exam,
every question of the exam and the exam row, leaving zero rows referencing
the exam in the three tables (with no precondition on the number of
dependents, so an exam without questions or answers deletes normally); on a
missing exam it reports the not-found error, and - because the dependent
deletes run first - it provably changes nothing exactly when no answer or
question row references the missing exam id, which is guaranteed by the
schema's foreign keys (`references(() => examsTable.id)`). -/
theorem deleteExam_cascades (s : DBState) (id : Nat) :
    ((∃ e ∈ s.exams, e.id = id) →
      ∃ s2, deleteExam id s = (s2, none) ∧
        s2.users = s.users ∧
        s2.answers = s.answers.filter (fun a => !decide (a.exam_id = id)) ∧
        s2.questions = s.questions.filter (fun q => !decide (q.exam_id = id)) ∧
        s2.exams = s.exams.filter (fun e => !decide (e.id = id)) ∧
        (∀ a ∈ s2.answers, a.exam_id ≠ id) ∧
        (∀ q ∈ s2.questions, q.exam_id ≠ id) ∧
        (∀ e ∈ s2.exams, e.id ≠ id)) ∧
    ((∀ e ∈ s.exams, e.id ≠ id) →
     (∀ a ∈ s.answers, a.exam_id ≠ id) →
     (∀ q ∈ s.questions, q.exam_id ≠ id) →
      deleteExam id s = (s, some "Exam not found")) := by
  constructor
  · intro hex
    obtain ⟨e, he, heid⟩ := hex
    have hemem : e ∈ s.exams.filter (fun e2 => decide (e2.id = id)) :=
      List.mem_filter.mpr ⟨he, by simp [heid]⟩
    have hene : (s.exams.filter (fun e2 => decide (e2.id = id))).length ≠ 0 :=
      Nat.pos_iff_ne_zero.mp (List.length_pos_of_mem hemem)
    refine ⟨{ s with
        exams := (s.exams.filter (fun e2 => !decide (e2.id = id)))
        questions := (s.questions.filter (fun q => !decide (q.exam_id = id)))
        answers := (s.answers.filter (fun a => !decide (a.exam_id = id))) },
      by simp [deleteExam, hene], rfl, rfl, rfl, rfl, ?_, ?_, ?_⟩
    · intro a ha
      simpa using (List.mem_filter.mp ha).2
    · intro q hq
      simpa using (List.mem_filter.mp hq).2
    · intro e2 he2
      simpa using (List.mem_filter.mp he2).2
  · intro hexam hans hq
    have h1 : s.answers.filter (fun a => !decide (a.exam_id = id)) = s.answers :=
      List.filter_eq_self.mpr (fun a ha => by simp [hans a ha])
    have h2 : s.questions.filter (fun q2 => !decide (q2.exam_id = id)) = s.questions :=
      List.filter_eq_self.mpr (fun q2 hq2 => by simp [hq q2 hq2])
    have h3 : (s.exams.filter (fun e => decide (e.id = id))).length = 0 := by
      rw [List.length_eq_zero, List.filter_eq_nil_iff]
      intro e he
      simp [hexam e he]
    simp [deleteExam, h1, h2, h3]

/-- Concrete database for the C6 witness: one exam (id 7) with one question
and one answer row, plus an unrelated exam (id 8) with its own rows. -/
def c6State : DBState :=
  { users := []
    exams :=
      [ { id := 7, judul_ujian := "a", deskripsi := "d", tanggal_mulai := 0,
          tanggal_selesai := 10, durasi := 60, status := ExamStatus.aktif, created_at := 0 },
        { id := 8, judul_ujian := "b", deskripsi := "d", tanggal_mulai := 0,
          tanggal_selesai := 10, durasi := 60, status := ExamStatus.aktif, created_at := 0 } ]
    questions :=
      [ { id := 1, exam_id := 7, soal := "q", pilihan := ["A", "B", "C", "D"],
          jawaban_benar := "A", created_at := 0 },
        { id := 2, exam_id := 8, soal := "r", pilihan := ["A", "B", "C", "D"],
          jawaban_benar := "B", created_at := 0 } ]
    answers :=
      [ { id := 4, exam_id := 7, user_id := 3, jawaban := [("1", "A")], nilai := 100,
          waktu_submit := 0, is_submitted := true, progress_jawaban := none,
          created_at := 0 } ] }

theorem deleteExam_cascades_witness :
    ∃ s2, deleteExam 7 c6State = (s2, none) ∧
      s2.users = c6State.users ∧
      s2.answers = c6State.answers.filter (fun a => !decide (a.exam_id = 7)) ∧
      s2.questions = c6State.questions.filter (fun q => !decide (q.exam_id = 7)) ∧
      s2.exams = c6State.exams.filter (fun e => !decide (e.id = 7)) := by
  obtain ⟨h1, -⟩ := deleteExam_cascades c6State 7
  obtain ⟨s2, ha, hb, hc, hd, he, -⟩ :=
    h1 ⟨c6State.exams.head (by decide), by decide⟩
  exact ⟨s2, ha, hb, hc, hd, he⟩

/-- C7: an exam appears in the active-exam listing evaluated at `now` iff its
status is 'aktif' and `tanggal_mulai <= now <= tanggal_selesai`; both
comparisons of the source are non-strict, so the boundaries `now =
tanggal_mulai` and `now = tanggal_selesai` are inclusive and every other
`now` outside the window, or any non-active status, excludes the exam. -/
theorem getActiveExams_iff (s : DBState) (now : Int) (e : Exam) (he : e ∈ s.exams) :
    e ∈ getActiveExams now s ↔
      (e.status = ExamStatus.aktif ∧ e.tanggal_mulai ≤ now ∧ now ≤ e.tanggal_selesai) := by
  unfold getActiveExams
  rw [List.mem_filter]
  simp [he, and_assoc, ge_iff_le]

/-- Concrete database for the C7 witness: a single active exam with window
[0, 10], tested exactly at its start boundary. -/
def c7State : DBState :=
  { users := []
    exams :=
      [ { id := 7, judul_ujian := "a", deskripsi := "d", tanggal_mulai := 0,
          tanggal_selesai := 10, durasi := 60, status := ExamStatus.aktif,
          created_at := 0 } ]
    questions := []
    answers := [] }

theorem getActiveExams_iff_witness :
    c7State.exams.head (by decide) ∈ getActiveExams 0 c7State ↔
      ((c7State.exams.head (by decide)).status = ExamStatus.aktif ∧
        (c7State.exams.head (by decide)).tanggal_mulai ≤ 0 ∧
        (0 : Int) ≤ (c7State.exams.head (by decide)).tanggal_selesai) :=
  getActiveExams_iff c7State 0 (c7State.exams.head (by decide)) (by decide)

/-- C8: the end-after-start invariant is enforced whenever either bound
changes: `createExam` rejects `tanggal_selesai <= tanggal_mulai` with the
date-order error (and succeeds with the input dates otherwise), and
`updateExam` rejects with the same error whenever the effective end (new or
stored) is not strictly after the effective start (new or stored), in each
of the three cases - both bounds supplied, only the start supplied, only the
end supplied; every date-order failure is raised before the row update, so
the database is unchanged. -/
theorem examDates_validated (s : DBState) (cinput : CreateExamInput) (now : Int)
    (uinput : UpdateExamInput) :
    (cinput.tanggal_selesai ≤ cinput.tanggal_mulai →
       createExam cinput now s = Except.error "Tanggal selesai harus setelah tanggal mulai") ∧
    (cinput.tanggal_mulai < cinput.tanggal_selesai →
       ∃ s2 e2, createExam cinput now s = Except.ok (s2, e2) ∧
         e2.tanggal_mulai = cinput.tanggal_mulai ∧
         e2.tanggal_selesai = cinput.tanggal_selesai ∧
         e2.tanggal_mulai < e2.tanggal_selesai) ∧
    (∀ m sel, uinput.tanggal_mulai = some m → uinput.tanggal_selesai = some sel →
       sel ≤ m →
       updateExam uinput s = Except.error "Tanggal selesai harus setelah tanggal mulai") ∧
    (∀ m ex, uinput.tanggal_mulai = some m → uinput.tanggal_selesai = none →
       s.exams.find? (fun e => decide (e.id = uinput.id)) = some ex →
       ex.tanggal_selesai ≤ m →
       updateExam uinput s = Except.error "Tanggal selesai harus setelah tanggal mulai") ∧
    (∀ sel ex, uinput.tanggal_mulai = none → uinput.tanggal_selesai = some sel →
       s.exams.find? (fun e => decide (e.id = uinput.id)) = some ex →
       sel ≤ ex.tanggal_mulai →
       updateExam uinput s = Except.error "Tanggal selesai harus setelah tanggal mulai") ∧
    (∀ msg, updateExam uinput s = Except.error msg → updateExamDB uinput s = s) := by
  refine ⟨?_, ?_, ?_, ?_, ?_, ?_⟩
  · intro h
    simp [createExam, h]
  · intro h
    have h2 : ¬ (cinput.tanggal_selesai ≤ cinput.tanggal_mulai) := not_le.mpr h
    exact ⟨{ s with exams := (s.exams ++ [newExam cinput now s]) }, newExam cinput now s,
      by simp [createExam, h2], rfl, rfl, h⟩
  · intro m sel hm hsel hle
    simp [updateExam, hm, hsel, hle]
  · intro m ex hm hsel hfind hle
    simp [updateExam, hm, hsel, hfind, hle]
  · intro sel ex hm hsel hfind hle
    simp [updateExam, hm, hsel, hfind, hle]
  · intro msg hmsg
    unfold updateExamDB
    rw [hmsg]

/-- Concrete database for the C8 witness: one exam with window [0, 10]; an
update supplying only a new start of 20 violates end-after-start. -/
def c8State : DBState :=
  { users := []
    exams :=
      [ { id := 7, judul_ujian := "a", deskripsi := "d", tanggal_mulai := 0,
          tanggal_selesai := 10, durasi := 60, status := ExamStatus.aktif,
          created_at := 0 } ]
    questions := []
    answers := [] }

/-- Concrete update input for the C8 witness: only the start bound. -/
def c8Input : UpdateExamInput :=
  { id := 7, judul_ujian := none, deskripsi := none, tanggal_mulai := some 20,
    tanggal_selesai := none, durasi := none, status := none }

theorem examDates_validated_witness :
    updateExam c8Input c8State = Except.error "Tanggal selesai harus setelah tanggal mulai" ∧
    updateExamDB c8Input c8State = c8State := by
  obtain ⟨-, -, -, h4, -, h6⟩ :=
    examDates_validated c8State
      { judul_ujian := "x", deskripsi := "y", tanggal_mulai := 0, tanggal_selesai := 1,
        durasi := 1, status := ExamStatus.aktif } 0 c8Input
  have herr := h4 20 (c8State.exams.head (by decide)) rfl rfl (by decide) (by decide)
  exact ⟨herr, h6 _ herr⟩

/-- Two question rows equal in every column except possibly the
correct-choice column. -/
def sameExceptCorrect (q1 q2 : Question) : Prop :=
  q1.id = q2.id ∧ q1.exam_id = q2.exam_id ∧ q1.soal = q2.soal ∧
    q1.pilihan = q2.pilihan ∧ q1.created_at = q2.created_at

theorem participantProj_filter_congr (examId : Nat) (l1 l2 : List Question)
    (h : List.Forall₂ sameExceptCorrect l1 l2) :
    (l1.filter (fun q => decide (q.exam_id = examId))).map participantProj
      = (l2.filter (fun q => decide (q.exam_id = examId))).map participantProj := by
  induction h with
  | nil => rfl
  | @cons a b t1 t2 hab htail ih =>
    obtain ⟨h1, h2, h3, h4, h5⟩ := hab
    rw [List.filter_cons, List.filter_cons]
    by_cases hq : a.exam_id = examId
    · have hq2 : b.exam_id = examId := h2 ▸ hq
      rw [if_pos (by simp [hq]), if_pos (by simp [hq2])]
      rw [List.map_cons, List.map_cons, ih]
      have hproj : participantProj a = participantProj b := by
        simp [participantProj, h1, h2, h3, h4, h5]
      rw [hproj]
    · have hq2 : ¬ (b.exam_id = examId) := fun hb => hq (h2 ▸ hb)
      rw [if_neg (by simp [hq]), if_neg (by simp [hq2]), ih]

/-- C9: the participant-facing question listing is built from a projection
record (`ParticipantQuestion`) that has no correct-answer field, and it is
identical on any two database states whose question tables agree on every
column except `jawaban_benar` (the other tables are not even read), so the
participant's view reveals nothing about the answer key. -/
theorem participant_view_hides_answer_key (s1 s2 : DBState) (examId : Nat)
    (h : List.Forall₂ sameExceptCorrect s1.questions s2.questions) :
    getQuestionsForParticipant examId s1 = getQuestionsForParticipant examId s2 :=
  participantProj_filter_congr examId s1.questions s2.questions h

/-- Concrete databases for the C9 witness: identical questions except for
opposite correct choices. -/
def c9StateA : DBState :=
  { users := []
    exams := []
    questions :=
      [ { id := 1, exam_id := 7, soal := "q", pilihan := ["A", "B", "C", "D"],
          jawaban_benar := "A", created_at := 0 } ]
    answers := [] }

/-- Second concrete database for the C9 witness. -/
def c9StateB : DBState :=
  { users := []
    exams := []
    questions :=
      [ { id := 1, exam_id := 7, soal := "q", pilihan := ["A", "B", "C", "D"],
          jawaban_benar := "D", created_at := 0 } ]
    answers := [] }

theorem participant_view_hides_answer_key_witness :
    getQuestionsForParticipant 7 c9StateA = getQuestionsForParticipant 7 c9StateB :=
  participant_view_hides_answer_key c9StateA c9StateB 7
    (List.Forall₂.cons ⟨rfl, rfl, rfl, rfl, rfl⟩ List.Forall₂.nil)

theorem b64char_mem (n : Nat) : b64char n ∈ base64Table := by
  unfold b64char
  have h64 : base64Table.length = 64 := rfl
  have hlt : n % 64 < base64Table.length := by omega
  rw [List.getD_eq_getElem?_getD, List.getElem?_eq_getElem hlt]
  exact List.getElem_mem hlt

theorem colon_not_mem_base64Table : ':' ∉ base64Table := by
  decide

theorem b64char_ne_colon (n : Nat) : b64char n ≠ ':' :=
  fun h => colon_not_mem_base64Table (h ▸ b64char_mem n)

theorem colon_not_in_base64Encode (l : List Nat) : ':' ∉ base64Encode l := by
  induction l using base64Encode.induct with
  | case1 =>
    simp [base64Encode]
  | case2 b1 =>
    intro hmem
    simp only [base64Encode, List.mem_cons, List.not_mem_nil, or_false] at hmem
    rcases hmem with h | h | h | h
    · exact b64char_ne_colon _ h.symm
    · exact b64char_ne_colon _ h.symm
    · exact absurd h (by decide)
    · exact absurd h (by decide)
  | case3 b1 b2 =>
    intro hmem
    simp only [base64Encode, List.mem_cons, List.not_mem_nil, or_false] at hmem
    rcases hmem with h | h | h | h
    · exact b64char_ne_colon _ h.symm
    · exact b64char_ne_colon _ h.symm
    · exact b64char_ne_colon _ h.symm
    · exact absurd h (by decide)
  | case4 b1 b2 b3 rest ih =>
    intro hmem
    simp only [base64Encode, List.mem_cons] at hmem
    rcases hmem with h | h | h | h | h
    · exact b64char_ne_colon _ h.symm
    · exact b64char_ne_colon _ h.symm
    · exact b64char_ne_colon _ h.symm
    · exact b64char_ne_colon _ h.symm
    · exact ih h

theorem jsSplit_no_sep (sep : Char) (l : List Char) (h : sep ∉ l) :
    jsSplit sep l = [l] := by
  induction l with
  | nil => rfl
  | cons c rest ih =>
    have hc : ¬ (c = sep) := fun e => h (e ▸ List.mem_cons_self c rest)
    have hr : sep ∉ rest := fun hm => h (List.mem_cons_of_mem c hm)
    unfold jsSplit
    rw [if_neg hc, ih hr]

theorem verifyPassword_no_colon (pbkdf2 : String → String → String)
    (pw stored : String) (h : ':' ∉ stored.data) :
    verifyPassword pbkdf2 pw stored = false := by
  unfold verifyPassword
  rw [jsSplit_no_sep ':' stored.data h]
  rfl

/-- C10: the password stored by `createUser` is the base64 of the plaintext
bytes, base64 output never contains ':', and `verifyPassword` rejects any
stored value without a ':' (its salt-hash split does not yield exactly two
parts), so `loginUser` returns null on every login attempt against every
user whose stored password came from `createUser` - for any key-derivation
function, any email and any password tried. -/
theorem createUser_then_loginUser_never_authenticates :
    (∀ bytes : List Nat, ':' ∉ (hashPassword bytes).data) ∧
    (∀ (pbkdf2 : String → String → String) (pw stored : String),
      ':' ∉ stored.data → verifyPassword pbkdf2 pw stored = false) ∧
    (∀ (pbkdf2 : String → String → String) (s : DBState) (email pw : String),
      (∀ u ∈ s.users, u.email = email → ∃ bytes : List Nat, u.password = hashPassword bytes) →
      loginUser pbkdf2 s email pw = none) := by
  have h1 : ∀ bytes : List Nat, ':' ∉ (hashPassword bytes).data := by
    intro bytes
    exact colon_not_in_base64Encode bytes
  refine ⟨h1, verifyPassword_no_colon, ?_⟩
  intro pbkdf2 s email pw husers
  unfold loginUser
  cases hf : s.users.find? (fun u => decide (u.email = email)) with
  | none => rfl
  | some u =>
    have hpemail := List.find?_some hf
    have hemail : u.email = email := of_decide_eq_true hpemail
    obtain ⟨bytes, hb⟩ := husers u (List.mem_of_find?_eq_some hf) hemail
    have hv : verifyPassword pbkdf2 pw u.password = false :=
      verifyPassword_no_colon pbkdf2 pw u.password (hb ▸ h1 bytes)
    simp [hv]

/-- Concrete user for the C10 witness, created with plaintext "abc" (UTF-8
bytes 97, 98, 99), so the stored password is its base64 "YWJj". -/
def c10User : User :=
  { id := 1, nama := "u", email := "u@x.io", password := hashPassword [97, 98, 99],
    role := Role.peserta, kelas := none, created_at := 0 }

/-- Concrete database for the C10 witness. -/
def c10State : DBState :=
  { users := [c10User], exams := [], questions := [], answers := [] }

theorem createUser_then_loginUser_never_authenticates_witness :
    loginUser (fun p salt => p ++ salt) c10State "u@x.io" "abc" = none := by
  obtain ⟨-, -, h3⟩ := createUser_then_loginUser_never_authenticates
  refine h3 (fun p salt => p ++ salt) c10State "u@x.io" "abc" ?_
  intro u hu hemail
  have hu2 : u = c10User := by
    simpa [c10State] using hu
  exact ⟨[97, 98, 99], by rw [hu2]; rfl⟩

end ExamApp
